import Mathlib

/-!
Verification of the Strike Finance monitor's decision-and-retention engine.

The Python sources are shallowly embedded:
  * `StrikeMonitor` models `strike_monitor.py` (consensus engine, trend
    tracker, alert cooldowns, and the monitor loop's per-cycle step);
  * `CleanupDebugFiles` models `cleanup_debug_files.py` (filename parsing,
    tier grouping, greedy thinning and the sweep).

Python floats (confidence scores) are modelled as exact rationals, machine
timestamps as integers counting seconds; raising an exception is modelled by
an explicit outcome constructor.
-/

namespace StrikeMonitor

/-- The confidence labels `consensus_check` can return: the strings
"HIGH", "UNCERTAIN" and "ERROR" in the Python source. -/
inductive ConfLabel where
  | HIGH
  | UNCERTAIN
  | ERROR
deriving DecidableEq, Repr

/-- One detection method's verdict for a cycle: `state = none` models a
method that failed (`check_with_*` returned `None`, an Unknown verdict),
`some b` models an available/capped verdict `b` with confidence `conf`. -/
structure Observation where
  method : String
  state : Option Bool
  conf : ℚ
deriving DecidableEq, Repr

/-- The `results` list built at the top of `consensus_check`: one
`(method, available, confidence)` triple per method whose check did not
return `None` (lines 429-444 of strike_monitor.py). -/
def cycleResults (obs : List Observation) : List (String × Bool × ℚ) :=
  obs.filterMap (fun o => o.state.map (fun b => (o.method, b, o.conf)))

/-- `available_votes = sum(1 for _, available, _ in results if available)`
(line 451). -/
def available_votes (results : List (String × Bool × ℚ)) : Nat :=
  (results.filter (fun r => r.2.1)).length

/-- `avg_confidence = sum(conf for _, _, conf in results) / len(results)`
(lines 455-456). -/
def avg_confidence (results : List (String × Bool × ℚ)) : ℚ :=
  (results.map (fun r => r.2.2)).sum / (results.length : ℚ)

/-- The decision logic of `consensus_check` (lines 446-472): empty results
yield `(False, "ERROR")`; a half-or-more share of available votes yields
Available with HIGH/UNCERTAIN by mean confidence; a strong unanimous capped
signal yields Capped HIGH; everything else defaults to Available UNCERTAIN. -/
def consensus_decision (results : List (String × Bool × ℚ)) : Bool × ConfLabel :=
  if results = [] then (false, ConfLabel.ERROR)
  else if (available_votes results : ℚ) ≥ (results.length : ℚ) * (1/2) then
    (true, if avg_confidence results > 7/10 then ConfLabel.HIGH else ConfLabel.UNCERTAIN)
  else if avg_confidence results > 8/10 ∧ available_votes results = 0 then
    (false, ConfLabel.HIGH)
  else
    (true, ConfLabel.UNCERTAIN)

/-- `consensus_check` as a function of the cycle's observations: build the
non-Unknown results list, then decide. -/
def consensus_check (obs : List Observation) : Bool × ConfLabel :=
  consensus_decision (cycleResults obs)

/-- The disagreement condition of line 475:
`len(results) > 1 and len(set(result for _, result, _ in results)) > 1`. -/
def methods_disagree (results : List (String × Bool × ℚ)) : Bool :=
  decide (1 < results.length) && decide (1 < ((results.map (fun r => r.2.1)).dedup).length)

/-- The buffer update of `analyze_trend` (lines 411-413): append the new
state, then pop the oldest entry if the buffer exceeds `max_history = 10`. -/
def trend_buffer (historical_states : List Bool) (current_state : Bool) : List Bool :=
  if 10 < (historical_states ++ [current_state]).length then
    (historical_states ++ [current_state]).tail
  else historical_states ++ [current_state]

/-- The classification of `analyze_trend` (lines 415-425): fewer than 3
entries is insufficient data; otherwise inspect the last 3 entries. -/
def trend_label (h1 : List Bool) : String :=
  if h1.length < 3 then "INSUFFICIENT_DATA"
  else if (h1.drop (h1.length - 3)).all (fun b => b) then "CONSISTENTLY_AVAILABLE"
  else if !((h1.drop (h1.length - 3)).any (fun b => b)) then "CONSISTENTLY_CAPPED"
  else "FLUCTUATING"

/-- `analyze_trend` returns the updated buffer together with the label the
Python method returns (the buffer mutation is made explicit). -/
def analyze_trend (historical_states : List Bool) (current_state : Bool) :
    List Bool × String :=
  (trend_buffer historical_states current_state,
   trend_label (trend_buffer historical_states current_state))

/-- The alert kinds `run_monitor` passes to `AlertManager.send_alert`. -/
inductive AlertType where
  | LIQUIDITY_AVAILABLE
  | UNCERTAIN_AVAILABLE
  | MONITOR_FAILURE
deriving DecidableEq, Repr

/-- `cooldown_seconds = 120 if confidence == "UNCERTAIN" else 180`
(line 69). -/
def cooldown_seconds (confidence : ConfLabel) : Int :=
  if confidence = ConfLabel.UNCERTAIN then 120 else 180

/-- `AlertManager.send_alert` (lines 64-92) as a function of the per-kind
cooldown map: returns whether the alert goes out, and the updated map
(`last_alerts[alert_type] = now` only when it goes out). -/
def send_alert (last_alerts : AlertType → Option Int) (now : Int)
    (alert_type : AlertType) (confidence : ConfLabel) :
    Bool × (AlertType → Option Int) :=
  match last_alerts alert_type with
  | some t =>
    if now - t < cooldown_seconds confidence then (false, last_alerts)
    else (true, fun a => if a = alert_type then some now else last_alerts a)
  | none => (true, fun a => if a = alert_type then some now else last_alerts a)

/-- The mutable locals of `run_monitor` (lines 528-531) that persist from
one cycle to the next. -/
structure LoopState where
  last_state : Bool
  last_confidence : ConfLabel
  consecutive_failures : Nat
  historical_states : List Bool
deriving DecidableEq, Repr

/-- One iteration of the `while True` loop either runs the try-body to
completion on the cycle's observations, or raises (the except branch of
lines 597-606). -/
inductive CycleOutcome where
  | ok (obs : List Observation)
  | exn
deriving DecidableEq, Repr

/-- One iteration of `run_monitor`'s loop (lines 533-606): on success the
failure counter resets to zero, state tracking and the trend buffer update,
and availability alerts are requested per the branch conditions; on an
exception the counter increments and a MONITOR_FAILURE alert (with the
default HIGH confidence argument) is requested once it reaches 3. -/
def monitor_step (st : LoopState) (outcome : CycleOutcome) :
    LoopState × List (AlertType × ConfLabel) :=
  match outcome with
  | CycleOutcome.exn =>
      ({ st with consecutive_failures := st.consecutive_failures + 1 },
       if 3 ≤ st.consecutive_failures + 1 then
         [(AlertType.MONITOR_FAILURE, ConfLabel.HIGH)]
       else [])
  | CycleOutcome.ok obs =>
      let current_state := (consensus_check obs).1
      let confidence_level := (consensus_check obs).2
      let hist := (analyze_trend st.historical_states current_state).1
      let state_changed := current_state != st.last_state
      let confidence_changed := confidence_level != st.last_confidence
      let alerts :=
        if state_changed && current_state then
          [(AlertType.LIQUIDITY_AVAILABLE, confidence_level)]
        else if current_state && confidence_changed &&
            (confidence_level == ConfLabel.UNCERTAIN) then
          [(AlertType.UNCERTAIN_AVAILABLE, confidence_level)]
        else []
      ({ last_state := current_state, last_confidence := confidence_level,
         consecutive_failures := 0, historical_states := hist }, alerts)

end StrikeMonitor

namespace StrikeMonitor

theorem length_pos_of_ne_nil {α : Type} {l : List α} (h : l ≠ []) : 0 < l.length :=
  List.length_pos.mpr h

theorem ratio_ge_half {a : ℚ} {n : ℚ} (hn : 0 < n) (h : a / n ≥ 1/2) :
    a ≥ n * (1/2) := by
  rw [ge_iff_le, le_div_iff₀ hn] at h
  linarith

theorem ratio_lt_half {a : ℚ} {n : ℚ} (hn : 0 < n) (h : a / n < 1/2) :
    ¬ a ≥ n * (1/2) := by
  rw [div_lt_iff₀ hn] at h
  intro hc
  rw [ge_iff_le] at hc
  nlinarith

/-- C1: for a non-empty set of non-Unknown observations with an
available-vote share of at least one half (ties included), the consensus
decision is Available, labelled HIGH exactly when the mean confidence
exceeds 7/10 and UNCERTAIN otherwise. -/
theorem consensus_majority_available (obs : List Observation)
    (hne : cycleResults obs ≠ [])
    (hmaj : (available_votes (cycleResults obs) : ℚ) / ((cycleResults obs).length : ℚ) ≥ 1/2) :
    (consensus_check obs).1 = true ∧
    (consensus_check obs).2 =
      (if avg_confidence (cycleResults obs) > 7/10 then ConfLabel.HIGH
       else ConfLabel.UNCERTAIN) := by
  have hlen : (0 : ℚ) < ((cycleResults obs).length : ℚ) := by
    exact_mod_cast length_pos_of_ne_nil hne
  have hcond : (available_votes (cycleResults obs) : ℚ) ≥
      ((cycleResults obs).length : ℚ) * (1/2) := ratio_ge_half hlen hmaj
  unfold consensus_check consensus_decision
  rw [if_neg hne, if_pos hcond]
  exact ⟨rfl, rfl⟩

/-- Witness for C1 at a concrete single-observation cycle. -/
theorem consensus_majority_available_witness :
    cycleResults [⟨"HTTP", some true, 19/20⟩] ≠ [] ∧
    (available_votes (cycleResults [⟨"HTTP", some true, 19/20⟩]) : ℚ) /
      ((cycleResults [⟨"HTTP", some true, 19/20⟩]).length : ℚ) ≥ 1/2 ∧
    (consensus_check [⟨"HTTP", some true, 19/20⟩]).1 = true ∧
    (consensus_check [⟨"HTTP", some true, 19/20⟩]).2 =
      (if avg_confidence (cycleResults [⟨"HTTP", some true, 19/20⟩]) > 7/10
       then ConfLabel.HIGH else ConfLabel.UNCERTAIN) :=
  ⟨by decide, by norm_num [available_votes, cycleResults, List.filterMap, List.filter],
   consensus_majority_available [⟨"HTTP", some true, 19/20⟩] (by decide)
     (by norm_num [available_votes, cycleResults, List.filterMap, List.filter])⟩

theorem no_available_vote {obs : List Observation}
    (h : available_votes (cycleResults obs) = 0) :
    ∀ o ∈ obs, o.state ≠ some true := by
  intro o ho hst
  have hmem : (o.method, true, o.conf) ∈ cycleResults obs :=
    List.mem_filterMap.mpr ⟨o, ho, by rw [hst]; rfl⟩
  have hmemf : (o.method, true, o.conf) ∈ (cycleResults obs).filter (fun r => r.2.1) :=
    List.mem_filter.mpr ⟨hmem, rfl⟩
  unfold available_votes at h
  rw [List.length_eq_zero] at h
  rw [h] at hmemf
  exact absurd hmemf (List.not_mem_nil _)

/-- C2: for a non-empty set of non-Unknown observations with an
available-vote share below one half, the decision is Capped (with HIGH
confidence) precisely when the mean confidence exceeds 8/10 and there is no
available vote; every other such cycle decides Available UNCERTAIN, and a
Capped decision implies no observation voted Available. -/
theorem consensus_minority_branch (obs : List Observation)
    (hne : cycleResults obs ≠ [])
    (hmin : (available_votes (cycleResults obs) : ℚ) / ((cycleResults obs).length : ℚ) < 1/2) :
    (consensus_check obs = (false, ConfLabel.HIGH) ↔
      (avg_confidence (cycleResults obs) > 8/10 ∧ available_votes (cycleResults obs) = 0)) ∧
    (¬ (avg_confidence (cycleResults obs) > 8/10 ∧ available_votes (cycleResults obs) = 0) →
      consensus_check obs = (true, ConfLabel.UNCERTAIN)) ∧
    ((consensus_check obs).1 = false → ∀ o ∈ obs, o.state ≠ some true) := by
  have hlen : (0 : ℚ) < ((cycleResults obs).length : ℚ) := by
    exact_mod_cast length_pos_of_ne_nil hne
  have hcond : ¬ (available_votes (cycleResults obs) : ℚ) ≥
      ((cycleResults obs).length : ℚ) * (1/2) := ratio_lt_half hlen hmin
  unfold consensus_check consensus_decision
  rw [if_neg hne, if_neg hcond]
  by_cases h : avg_confidence (cycleResults obs) > 8/10 ∧ available_votes (cycleResults obs) = 0
  · rw [if_pos h]
    exact ⟨by simp [h], fun hc => absurd h hc, fun _ => no_available_vote h.2⟩
  · rw [if_neg h]
    refine ⟨?_, fun _ => rfl, ?_⟩
    · constructor
      · intro hc
        simp at hc
      · intro hc
        exact absurd hc h
    · intro hfalse
      simp at hfalse

/-- Witness for C2 at a concrete unanimous-capped cycle. -/
theorem consensus_minority_branch_witness :
    cycleResults [⟨"HTTP", some false, 9/10⟩] ≠ [] ∧
    (available_votes (cycleResults [⟨"HTTP", some false, 9/10⟩]) : ℚ) /
      ((cycleResults [⟨"HTTP", some false, 9/10⟩]).length : ℚ) < 1/2 ∧
    (consensus_check [⟨"HTTP", some false, 9/10⟩] = (false, ConfLabel.HIGH) ↔
      (avg_confidence (cycleResults [⟨"HTTP", some false, 9/10⟩]) > 8/10 ∧
       available_votes (cycleResults [⟨"HTTP", some false, 9/10⟩]) = 0)) :=
  ⟨by decide, by norm_num [available_votes, cycleResults, List.filterMap, List.filter],
   (consensus_minority_branch [⟨"HTTP", some false, 9/10⟩] (by decide)
     (by norm_num [available_votes, cycleResults, List.filterMap, List.filter])).1⟩

theorem cycleResults_ne_nil {obs : List Observation} {o : Observation}
    (ho : o ∈ obs) {b : Bool} (hst : o.state = some b) : cycleResults obs ≠ [] := by
  intro hnil
  have hmem : (o.method, b, o.conf) ∈ cycleResults obs :=
    List.mem_filterMap.mpr ⟨o, ho, by rw [hst]; rfl⟩
  rw [hnil] at hmem
  exact absurd hmem (List.not_mem_nil _)

/-- C3 counterexample: on an all-Unknown cycle `consensus_check` returns the
label ERROR, not the claimed UNCERTAIN. -/
theorem consensus_total_failure_counterexample :
    consensus_check [⟨"HTTP", none, 0⟩, ⟨"Selenium", none, 0⟩] = (false, ConfLabel.ERROR) ∧
    ConfLabel.ERROR ≠ ConfLabel.UNCERTAIN :=
  ⟨rfl, by decide⟩

/-- C3 amended: an all-Unknown cycle yields state Capped with the dedicated
label ERROR (rather than UNCERTAIN), and no cycle with at least one
non-Unknown observation ever produces ERROR, so callers can tell a
total-failure cycle apart from any normal decision. -/
theorem consensus_total_failure_amended :
    (∀ obs : List Observation, (∀ o ∈ obs, o.state = none) →
      consensus_check obs = (false, ConfLabel.ERROR)) ∧
    (∀ obs : List Observation, (∃ o ∈ obs, o.state ≠ none) →
      (consensus_check obs).2 ≠ ConfLabel.ERROR) := by
  constructor
  · intro obs h
    have hnil : cycleResults obs = [] := by
      apply List.filterMap_eq_nil_iff.mpr
      intro o ho
      rw [h o ho]
      rfl
    unfold consensus_check consensus_decision
    rw [hnil, if_pos rfl]
  · intro obs h
    rcases h with ⟨o, ho, hst⟩
    rcases Option.ne_none_iff_exists'.mp hst with ⟨b, hb⟩
    have hne : cycleResults obs ≠ [] := cycleResults_ne_nil ho hb
    unfold consensus_check consensus_decision
    rw [if_neg hne]
    split
    · split <;> decide
    · split
      · decide
      · decide

/-- Witness for the amended C3 at concrete all-Unknown and mixed cycles. -/
theorem consensus_total_failure_amended_witness :
    consensus_check [⟨"HTTP", none, 0⟩] = (false, ConfLabel.ERROR) ∧
    (consensus_check [⟨"HTTP", some true, 1/2⟩]).2 ≠ ConfLabel.ERROR :=
  ⟨consensus_total_failure_amended.1 [⟨"HTTP", none, 0⟩] (by decide),
   consensus_total_failure_amended.2 [⟨"HTTP", some true, 1/2⟩]
     ⟨⟨"HTTP", some true, 1/2⟩, List.mem_singleton.mpr rfl, by decide⟩⟩

theorem both_mem_length {l : List Bool} (ht : true ∈ l) (hf : false ∈ l) :
    1 < l.length := by
  rcases l with _ | ⟨a, _ | ⟨b, t⟩⟩
  · exact absurd ht (List.not_mem_nil _)
  · have h1 := List.mem_singleton.mp ht
    have h2 := List.mem_singleton.mp hf
    rw [← h1] at h2
    exact absurd h2 (by decide)
  · simp

theorem bool_dedup_gt_one {l : List Bool} :
    1 < l.dedup.length ↔ (true ∈ l ∧ false ∈ l) := by
  constructor
  · intro h
    rcases hd : l.dedup with _ | ⟨a, _ | ⟨b, t⟩⟩
    · rw [hd] at h; simp at h
    · rw [hd] at h; simp at h
    · have hnd := List.nodup_dedup l
      rw [hd] at hnd
      have hab : a ≠ b := by
        intro hab
        rw [hab] at hnd
        exact (List.nodup_cons.mp hnd).1 (List.mem_cons_self b t)
      have ha : a ∈ l := List.mem_dedup.mp (hd ▸ List.mem_cons_self a (b :: t))
      have hb : b ∈ l := List.mem_dedup.mp
        (hd ▸ List.mem_cons_of_mem a (List.mem_cons_self b t))
      cases a <;> cases b <;> simp_all
  · rintro ⟨ht, hf⟩
    exact both_mem_length (List.mem_dedup.mpr ht) (List.mem_dedup.mpr hf)

theorem mem_vote_map_iff {obs : List Observation} {b : Bool} :
    b ∈ ((cycleResults obs).map (fun r => r.2.1)) ↔ ∃ o ∈ obs, o.state = some b := by
  simp only [cycleResults, List.mem_map, List.mem_filterMap, Option.map_eq_some']
  constructor
  · rintro ⟨r, ⟨o, ho, c, hc, hr⟩, hb⟩
    refine ⟨o, ho, ?_⟩
    rw [hc]
    rw [← hr] at hb
    simp at hb
    rw [hb]
  · rintro ⟨o, ho, hst⟩
    exact ⟨(o.method, b, o.conf), ⟨o, ho, b, hst, rfl⟩, rfl⟩

/-- C4: the disagreement flag of the consensus engine is set iff the cycle's
non-Unknown observations contain both an Available and a Capped verdict, and
a cycle with exactly one non-Unknown result is never flagged. -/
theorem disagreement_iff_mixed :
    (∀ obs : List Observation,
      methods_disagree (cycleResults obs) = true ↔
        ((∃ o ∈ obs, o.state = some true) ∧ (∃ o ∈ obs, o.state = some false))) ∧
    (∀ r : String × Bool × ℚ, methods_disagree [r] = false) := by
  constructor
  · intro obs
    unfold methods_disagree
    rw [Bool.and_eq_true, decide_eq_true_iff, decide_eq_true_iff, bool_dedup_gt_one]
    constructor
    · rintro ⟨_, ht, hf⟩
      exact ⟨mem_vote_map_iff.mp ht, mem_vote_map_iff.mp hf⟩
    · rintro ⟨ht, hf⟩
      have ht' := mem_vote_map_iff.mpr ht
      have hf' := mem_vote_map_iff.mpr hf
      have hlen := both_mem_length ht' hf'
      rw [List.length_map] at hlen
      exact ⟨hlen, ht', hf'⟩
  · intro r
    simp [methods_disagree]

/-- C9: with a buffer of at most 10 entries, one trend-tracker step keeps
the buffer at no more than 10 entries, evicts only from the oldest end (the
new buffer is a suffix of the appended history), reports insufficient data
while fewer than 3 states were ever recorded, and otherwise classifies by
exactly the last 3 recorded states. -/
theorem trend_tracker_spec (h : List Bool) (cur : Bool) (hlen : h.length ≤ 10) :
    (analyze_trend h cur).1.length ≤ 10 ∧
    (analyze_trend h cur).1 <:+ h ++ [cur] ∧
    ((h ++ [cur]).length < 3 → (analyze_trend h cur).2 = "INSUFFICIENT_DATA") ∧
    (3 ≤ (h ++ [cur]).length →
      (analyze_trend h cur).2 =
        (if ((h ++ [cur]).drop ((h ++ [cur]).length - 3)).all (fun b => b) then
          "CONSISTENTLY_AVAILABLE"
         else if !(((h ++ [cur]).drop ((h ++ [cur]).length - 3)).any (fun b => b)) then
          "CONSISTENTLY_CAPPED"
         else "FLUCTUATING")) := by
  have hL : (h ++ [cur]).length = h.length + 1 := by simp
  by_cases hev : 10 < (h ++ [cur]).length
  · have h11 : (h ++ [cur]).length = 11 := by omega
    have hbuf : trend_buffer h cur = (h ++ [cur]).tail := by
      unfold trend_buffer
      rw [if_pos hev]
    have htl : (h ++ [cur]).tail.length = 10 := by
      rw [List.length_tail, h11]
    have h1 : (analyze_trend h cur).1 = (h ++ [cur]).tail := hbuf
    have h2 : (analyze_trend h cur).2 = trend_label (h ++ [cur]).tail := by
      unfold analyze_trend
      rw [hbuf]
    refine ⟨by rw [h1, htl], by rw [h1]; exact List.tail_suffix _, by omega, ?_⟩
    intro _
    rw [h2]
    unfold trend_label
    rw [htl, if_neg (by omega), h11]
    have hdrop : ((h ++ [cur]).tail).drop (10 - 3) = (h ++ [cur]).drop (11 - 3) := by
      rw [← List.drop_one, List.drop_drop]
    rw [hdrop]
  · have hbuf : trend_buffer h cur = h ++ [cur] := by
      unfold trend_buffer
      rw [if_neg hev]
    have h1 : (analyze_trend h cur).1 = h ++ [cur] := hbuf
    have h2 : (analyze_trend h cur).2 = trend_label (h ++ [cur]) := by
      unfold analyze_trend
      rw [hbuf]
    refine ⟨by rw [h1]; omega, by rw [h1], ?_, ?_⟩
    · intro hc
      rw [h2]
      unfold trend_label
      rw [if_pos hc]
    · intro hc
      rw [h2]
      unfold trend_label
      rw [if_neg (by omega)]

/-- Witness for C9 on a concrete short history with a mixed last-3 window. -/
theorem trend_tracker_spec_witness :
    [true, false].length ≤ 10 ∧
    (analyze_trend [true, false] true).1.length ≤ 10 :=
  ⟨by decide, (trend_tracker_spec [true, false] true (by decide)).1⟩

/-- C8 counterexample: a cycle in which every method returns Unknown runs
the try-body to completion (consensus returns the degraded Capped/ERROR
decision instead of raising), so the consecutive-failure counter is reset
to 0 rather than incremented from 2 to 3, and no MONITOR_FAILURE alert is
requested. -/
theorem monitor_failure_counter_counterexample :
    (monitor_step ⟨false, ConfLabel.HIGH, 2, []⟩
        (CycleOutcome.ok [⟨"HTTP", none, 0⟩, ⟨"Selenium", none, 0⟩])).1.consecutive_failures
      = 0 ∧
    (0 : Nat) ≠ 2 + 1 ∧
    (monitor_step ⟨false, ConfLabel.HIGH, 2, []⟩
        (CycleOutcome.ok [⟨"HTTP", none, 0⟩, ⟨"Selenium", none, 0⟩])).2 = [] :=
  ⟨rfl, by decide, rfl⟩

/-- C8 amended: the consecutive-failure counter counts cycles that raise an
exception — it increments on an exception cycle, resets to zero on any
completed cycle (all-Unknown cycles included), a MONITOR_FAILURE alert (the
default HIGH confidence) is requested exactly when the incremented counter
reaches the threshold 3, and its cooldown entry is keyed separately from
every other alert kind. -/
theorem monitor_failure_amended :
    (∀ st : LoopState,
      (monitor_step st CycleOutcome.exn).1.consecutive_failures =
        st.consecutive_failures + 1) ∧
    (∀ (st : LoopState) (obs : List Observation),
      (monitor_step st (CycleOutcome.ok obs)).1.consecutive_failures = 0) ∧
    (∀ st : LoopState,
      (AlertType.MONITOR_FAILURE, ConfLabel.HIGH) ∈ (monitor_step st CycleOutcome.exn).2 ↔
        3 ≤ st.consecutive_failures + 1) ∧
    (∀ (la : AlertType → Option Int) (now : Int) (ty : AlertType),
      ty ≠ AlertType.MONITOR_FAILURE →
        (send_alert la now AlertType.MONITOR_FAILURE ConfLabel.HIGH).2 ty = la ty) ∧
    (∀ (la la' : AlertType → Option Int) (now : Int),
      la AlertType.MONITOR_FAILURE = la' AlertType.MONITOR_FAILURE →
        (send_alert la now AlertType.MONITOR_FAILURE ConfLabel.HIGH).1 =
        (send_alert la' now AlertType.MONITOR_FAILURE ConfLabel.HIGH).1) := by
  refine ⟨fun st => rfl, fun st obs => rfl, ?_, ?_, ?_⟩
  · intro st
    by_cases hc : 3 ≤ st.consecutive_failures + 1 <;> simp [monitor_step, hc]
  · intro la now ty hty
    cases hla : la AlertType.MONITOR_FAILURE with
    | none => simp [send_alert, hla, hty]
    | some t =>
      by_cases hcd : now - t < cooldown_seconds ConfLabel.HIGH
      · simp [send_alert, hla, hcd]
      · simp [send_alert, hla, hcd, hty]
  · intro la la' now hmf
    cases hla : la' AlertType.MONITOR_FAILURE with
    | none => simp [send_alert, hmf, hla]
    | some t =>
      by_cases hcd : now - t < cooldown_seconds ConfLabel.HIGH
      · simp [send_alert, hmf, hla, hcd]
      · simp [send_alert, hmf, hla, hcd]

/-- Witness for the amended C8 at a concrete state with two prior failures. -/
theorem monitor_failure_amended_witness :
    (monitor_step ⟨false, ConfLabel.HIGH, 2, []⟩
        CycleOutcome.exn).1.consecutive_failures = 3 ∧
    (AlertType.MONITOR_FAILURE, ConfLabel.HIGH) ∈
      (monitor_step ⟨false, ConfLabel.HIGH, 2, []⟩ CycleOutcome.exn).2 ∧
    (send_alert (fun _ => none) 0 AlertType.MONITOR_FAILURE ConfLabel.HIGH).2
        AlertType.LIQUIDITY_AVAILABLE = none :=
  ⟨monitor_failure_amended.1 ⟨false, ConfLabel.HIGH, 2, []⟩,
   (monitor_failure_amended.2.2.1 ⟨false, ConfLabel.HIGH, 2, []⟩).mpr (by decide),
   monitor_failure_amended.2.2.2.1 (fun _ => none) 0
     AlertType.LIQUIDITY_AVAILABLE (by decide)⟩

end StrikeMonitor

namespace CleanupDebugFiles

/-- One archived debug artifact as the dicts built by `get_debug_files`
describe it: filename, the timestamp parsed from the name (in seconds), and
size in bytes. -/
structure FileInfo where
  name : String
  ts : Int
  size : Nat
deriving DecidableEq, Repr

/-- `retention_policy['keep_all_days'] = 3`. -/
def keep_all_days : Int := 3

/-- `retention_policy['hourly_days'] = 14`. -/
def hourly_days : Int := 14

/-- `retention_policy['daily_days'] = 365`. -/
def daily_days : Int := 365

/-- `(datetime.now() - timestamp).days`: the floor of the age in whole days
(Python timedelta days always round toward minus infinity). -/
def age_days (now : Int) (f : FileInfo) : Int := Int.fdiv (now - f.ts) 86400

/-- The four populated retention groups (the dict's weekly_zone key is
never appended to). -/
inductive Zone where
  | keep_all
  | hourly
  | daily
  | expired
deriving DecidableEq, Repr

/-- The if/elif chain of `group_files_by_time_period` (lines 76-86). -/
def zone_of (now : Int) (f : FileInfo) : Zone :=
  if age_days now f ≤ keep_all_days then Zone.keep_all
  else if age_days now f ≤ hourly_days then Zone.hourly
  else if age_days now f ≤ daily_days then Zone.daily
  else Zone.expired

/-- The groups dict returned by `group_files_by_time_period`. -/
structure FileGroups where
  keep_all : List FileInfo
  hourly_zone : List FileInfo
  daily_zone : List FileInfo
  weekly_zone : List FileInfo
  expired : List FileInfo
deriving DecidableEq, Repr

/-- `group_files_by_time_period` (lines 65-88): a single pass appending each
file to exactly one zone list, i.e. an order-preserving partition by
`zone_of`; weekly_zone stays empty. -/
def group_files_by_time_period (now : Int) (files : List FileInfo) : FileGroups :=
  { keep_all := files.filter (fun f => decide (zone_of now f = Zone.keep_all))
  , hourly_zone := files.filter (fun f => decide (zone_of now f = Zone.hourly))
  , daily_zone := files.filter (fun f => decide (zone_of now f = Zone.daily))
  , weekly_zone := []
  , expired := files.filter (fun f => decide (zone_of now f = Zone.expired)) }

/-- The loop of `select_representative_files` (lines 95-106) with the
`last_selected_time` variable made an explicit argument. -/
def select_rep_from (interval_hours : Int) : Option Int → List FileInfo → List FileInfo
  | _, [] => []
  | none, f :: rest => f :: select_rep_from interval_hours (some f.ts) rest
  | some t, f :: rest =>
    if interval_hours * 3600 ≤ f.ts - t then
      f :: select_rep_from interval_hours (some f.ts) rest
    else
      select_rep_from interval_hours (some t) rest

/-- `select_representative_files(files, interval_hours)`: keep a file when
no file was selected yet or when at least `interval_hours * 3600` seconds
elapsed since the last selected one. -/
def select_representative_files (files : List FileInfo) (interval_hours : Int) :
    List FileInfo :=
  select_rep_from interval_hours none files

/-- `hourly_selected` of `cleanup_files` (line 130). -/
def hourly_selected (now : Int) (files : List FileInfo) : List FileInfo :=
  select_representative_files (group_files_by_time_period now files).hourly_zone 1

/-- `hourly_to_delete` of `cleanup_files` (line 131). -/
def hourly_to_delete (now : Int) (files : List FileInfo) : List FileInfo :=
  (group_files_by_time_period now files).hourly_zone.filter
    (fun f => decide (f ∉ hourly_selected now files))

/-- `daily_selected` of `cleanup_files` (line 145). -/
def daily_selected (now : Int) (files : List FileInfo) : List FileInfo :=
  select_representative_files (group_files_by_time_period now files).daily_zone 24

/-- `daily_to_delete` of `cleanup_files` (line 146). -/
def daily_to_delete (now : Int) (files : List FileInfo) : List FileInfo :=
  (group_files_by_time_period now files).daily_zone.filter
    (fun f => decide (f ∉ daily_selected now files))

/-- The files `cleanup_files` unlinks, in deletion order: the non-selected
hourly-zone files, then the non-selected daily-zone files, then every
expired file (deletions are modelled as succeeding, as `_delete_file`
returns True on success). -/
def cleanup_deleted (now : Int) (files : List FileInfo) : List FileInfo :=
  hourly_to_delete now files ++ daily_to_delete now files ++
    (group_files_by_time_period now files).expired

/-- The stats dict built by `cleanup_files`. -/
structure CleanupStats where
  kept : Nat
  deleted : Nat
  errors : Nat
  size_freed : Nat
deriving DecidableEq, Repr

/-- `cleanup_files` (lines 108-169): early return of zeroed stats when no
files exist; otherwise every keep_all file plus each zone's selection is
kept and every file of `cleanup_deleted` is deleted, accumulating size. -/
def cleanup_files (now : Int) (files : List FileInfo) : CleanupStats :=
  if files = [] then ⟨0, 0, 0, 0⟩
  else
    { kept := (group_files_by_time_period now files).keep_all.length +
        (hourly_selected now files).length + (daily_selected now files).length
    , deleted := (cleanup_deleted now files).length
    , errors := 0
    , size_freed := ((cleanup_deleted now files).map (fun f => f.size)).sum }

/-- The artifact population left on disk after one sweep's unlink calls. -/
def surviving_files (now : Int) (files : List FileInfo) : List FileInfo :=
  files.filter (fun f => decide (f ∉ cleanup_deleted now files))

end CleanupDebugFiles

namespace CleanupDebugFiles

theorem select_rep_from_sublist (ih : Int) :
    ∀ (xs : List FileInfo) (t : Option Int), List.Sublist (select_rep_from ih t xs) xs := by
  intro xs
  induction xs with
  | nil => intro t; cases t <;> exact List.Sublist.refl []
  | cons f rest ihx =>
    intro t
    cases t with
    | none => exact (ihx (some f.ts)).cons₂ f
    | some t0 =>
      by_cases hc : ih * 3600 ≤ f.ts - t0
      · rw [select_rep_from, if_pos hc]
        exact (ihx (some f.ts)).cons₂ f
      · rw [select_rep_from, if_neg hc]
        exact (ihx (some t0)).cons f

theorem select_rep_from_chain (ih : Int) :
    ∀ (xs : List FileInfo) (t : Int),
      List.Chain' (fun a b => ih * 3600 ≤ b.ts - a.ts) (select_rep_from ih (some t) xs) ∧
      (∀ y ∈ (select_rep_from ih (some t) xs).head?, ih * 3600 ≤ y.ts - t) := by
  intro xs
  induction xs with
  | nil => intro t; exact ⟨List.chain'_nil, by simp [select_rep_from]⟩
  | cons f rest ihx =>
    intro t
    by_cases hc : ih * 3600 ≤ f.ts - t
    · rw [select_rep_from, if_pos hc]
      refine ⟨List.chain'_cons'.mpr ⟨(ihx f.ts).2, (ihx f.ts).1⟩, ?_⟩
      intro y hy
      rw [List.head?_cons, Option.mem_some_iff] at hy
      rw [← hy]
      exact hc
    · rw [select_rep_from, if_neg hc]
      exact ihx t

/-- Chain property of the greedy selection: consecutive kept files are at
least the resolution apart. -/
theorem select_chain (files : List FileInfo) (ih : Int) :
    List.Chain' (fun a b => ih * 3600 ≤ b.ts - a.ts)
      (select_representative_files files ih) := by
  cases files with
  | nil => exact List.chain'_nil
  | cons f rest =>
    unfold select_representative_files
    rw [select_rep_from]
    exact List.chain'_cons'.mpr ⟨(select_rep_from_chain ih rest f.ts).2,
      (select_rep_from_chain ih rest f.ts).1⟩

theorem select_rep_from_of_chain (ih : Int) :
    ∀ (xs : List FileInfo) (t : Int),
      List.Chain' (fun a b => ih * 3600 ≤ b.ts - a.ts) xs →
      (∀ y ∈ xs.head?, ih * 3600 ≤ y.ts - t) →
      select_rep_from ih (some t) xs = xs := by
  intro xs
  induction xs with
  | nil => intro t _ _; rfl
  | cons f rest ihx =>
    intro t hchain hhead
    have hf : ih * 3600 ≤ f.ts - t := hhead f (by rw [List.head?_cons]; rfl)
    rw [select_rep_from, if_pos hf]
    rcases List.chain'_cons'.mp hchain with ⟨hfb, hrest⟩
    rw [ihx f.ts hrest hfb]

/-- The greedy selection is the identity on an already-thinned list. -/
theorem select_of_chain (files : List FileInfo) (ih : Int)
    (h : List.Chain' (fun a b => ih * 3600 ≤ b.ts - a.ts) files) :
    select_representative_files files ih = files := by
  cases files with
  | nil => rfl
  | cons f rest =>
    unfold select_representative_files
    rw [select_rep_from]
    rcases List.chain'_cons'.mp h with ⟨hfb, hrest⟩
    rw [select_rep_from_of_chain ih rest f.ts hrest hfb]

/-- C5: greedy thinning always keeps the head of the list, keeps
consecutively selected artifacts at least `interval_hours` apart, selects a
subsequence of its input, and every artifact it does not keep lands in the
zone's deletion list (the complement filter `cleanup_files` builds). -/
theorem select_representative_spec (files : List FileInfo) (interval_hours : Int) :
    (select_representative_files files interval_hours).head? = files.head? ∧
    List.Chain' (fun a b => interval_hours * 3600 ≤ b.ts - a.ts)
      (select_representative_files files interval_hours) ∧
    List.Sublist (select_representative_files files interval_hours) files ∧
    (∀ f ∈ files, f ∉ select_representative_files files interval_hours →
      f ∈ files.filter
        (fun g => decide (g ∉ select_representative_files files interval_hours))) := by
  refine ⟨?_, select_chain files interval_hours,
    select_rep_from_sublist interval_hours files none, ?_⟩
  · cases files with
    | nil => rfl
    | cons f rest => rfl
  · intro f hf hns
    exact List.mem_filter.mpr ⟨hf, by simpa using hns⟩

/-- Witness for C5: three files half an hour apart each, thinned at hourly
resolution; the middle one is dropped and marked for deletion. -/
theorem select_representative_spec_witness :
    (⟨"b", 1800, 1⟩ : FileInfo) ∈
      [(⟨"a", 0, 1⟩ : FileInfo), ⟨"b", 1800, 1⟩, ⟨"c", 3600, 1⟩] ∧
    (⟨"b", 1800, 1⟩ : FileInfo) ∉
      select_representative_files [⟨"a", 0, 1⟩, ⟨"b", 1800, 1⟩, ⟨"c", 3600, 1⟩] 1 ∧
    (⟨"b", 1800, 1⟩ : FileInfo) ∈
      ([(⟨"a", 0, 1⟩ : FileInfo), ⟨"b", 1800, 1⟩, ⟨"c", 3600, 1⟩].filter
        (fun g => decide (g ∉
          select_representative_files [⟨"a", 0, 1⟩, ⟨"b", 1800, 1⟩, ⟨"c", 3600, 1⟩] 1))) :=
  ⟨by decide, by decide,
   (select_representative_spec [⟨"a", 0, 1⟩, ⟨"b", 1800, 1⟩, ⟨"c", 3600, 1⟩] 1).2.2.2
     ⟨"b", 1800, 1⟩ (by decide) (by decide)⟩

theorem fdiv_le_iff {x k : Int} : Int.fdiv x 86400 ≤ k ↔ x < (k + 1) * 86400 := by
  rw [Int.fdiv_eq_ediv _ (by norm_num)]
  constructor
  · intro h
    by_contra hc
    push_neg at hc
    have h2 : k + 1 ≤ x / 86400 :=
      (Int.le_ediv_iff_mul_le (by norm_num : (0:ℤ) < 86400)).mpr hc
    omega
  · intro h
    by_contra hc
    push_neg at hc
    have h2 : (k + 1) * 86400 ≤ x :=
      (Int.le_ediv_iff_mul_le (by norm_num : (0:ℤ) < 86400)).mp (by omega)
    omega

theorem mem_zone_filter {now : Int} {files : List FileInfo} {f : FileInfo} {z : Zone}
    (h : f ∈ files.filter (fun g => decide (zone_of now g = z))) : zone_of now f = z := by
  have h2 := (List.mem_filter.mp h).2
  simpa using h2

theorem mem_cleanup_deleted_zone {now : Int} {files : List FileInfo} {f : FileInfo}
    (h : f ∈ cleanup_deleted now files) :
    zone_of now f = Zone.hourly ∨ zone_of now f = Zone.daily ∨
      zone_of now f = Zone.expired := by
  unfold cleanup_deleted at h
  rcases List.mem_append.mp h with h1 | h2
  · rcases List.mem_append.mp h1 with ha | hb
    · exact Or.inl (mem_zone_filter (List.mem_of_mem_filter ha))
    · exact Or.inr (Or.inl (mem_zone_filter (List.mem_of_mem_filter hb)))
  · exact Or.inr (Or.inr (mem_zone_filter h2))

/-- C7 counterexample: a file aged exactly 3.5 days (302400 seconds, more
than 3 days) is placed in the keep-all tier by the code, because Python's
timedelta days attribute floors the age to 3 whole days; the claim instead
assigns every artifact older than 3 days to the hourly tier. -/
theorem retention_boundary_counterexample :
    zone_of 1000000 ⟨"debug_screenshot_x.png", 1000000 - 302400, 100⟩ = Zone.keep_all ∧
    (3 * 86400 : Int) < 302400 ∧ (302400 : Int) ≤ 14 * 86400 ∧
    zone_of 1000000 ⟨"debug_screenshot_x.png", 1000000 - 302400, 100⟩ ≠ Zone.hourly :=
  ⟨by decide, by decide, by decide, by decide⟩

/-- C7 amended: the tier of an artifact is determined by the floor of its
age in whole days, so the effective boundaries in exact age are: age below
4 days keeps all; at least 4 and below 15 days thins hourly; at least 15
and below 366 days thins daily; 366 days or more expires. Keep-all files
are never deleted by the sweep and expired files always are (so an
artifact aged 1 day is kept and one aged 400 days is deleted). -/
theorem retention_zone_amended (now : Int) (f : FileInfo) :
    (zone_of now f = Zone.keep_all ↔ now - f.ts < 4 * 86400) ∧
    (zone_of now f = Zone.hourly ↔
      4 * 86400 ≤ now - f.ts ∧ now - f.ts < 15 * 86400) ∧
    (zone_of now f = Zone.daily ↔
      15 * 86400 ≤ now - f.ts ∧ now - f.ts < 366 * 86400) ∧
    (zone_of now f = Zone.expired ↔ 366 * 86400 ≤ now - f.ts) ∧
    (∀ files : List FileInfo, f ∈ files → zone_of now f = Zone.keep_all →
      f ∉ cleanup_deleted now files) ∧
    (∀ files : List FileInfo, f ∈ files → zone_of now f = Zone.expired →
      f ∈ cleanup_deleted now files) := by
  have e3 : (age_days now f ≤ keep_all_days) ↔ now - f.ts < 4 * 86400 := by
    unfold age_days keep_all_days
    rw [fdiv_le_iff]
    norm_num
  have e14 : (age_days now f ≤ hourly_days) ↔ now - f.ts < 15 * 86400 := by
    unfold age_days hourly_days
    rw [fdiv_le_iff]
    norm_num
  have e365 : (age_days now f ≤ daily_days) ↔ now - f.ts < 366 * 86400 := by
    unfold age_days daily_days
    rw [fdiv_le_iff]
    norm_num
  have hval : zone_of now f =
      (if now - f.ts < 4 * 86400 then Zone.keep_all
       else if now - f.ts < 15 * 86400 then Zone.hourly
       else if now - f.ts < 366 * 86400 then Zone.daily
       else Zone.expired) := by
    unfold zone_of
    exact if_congr e3 rfl (if_congr e14 rfl (if_congr e365 rfl rfl))
  refine ⟨?_, ?_, ?_, ?_, ?_, ?_⟩
  · rw [hval]; split_ifs with h1 h2 h3 <;> simp <;> omega
  · rw [hval]; split_ifs with h1 h2 h3 <;> simp <;> omega
  · rw [hval]; split_ifs with h1 h2 h3 <;> simp <;> omega
  · rw [hval]; split_ifs with h1 h2 h3 <;> simp <;> omega
  · intro files _ hz hmem
    rcases mem_cleanup_deleted_zone hmem with h | h | h <;> rw [hz] at h <;> simp at h
  · intro files hf hz
    unfold cleanup_deleted
    exact List.mem_append.mpr (Or.inr (List.mem_filter.mpr ⟨hf, by simp [hz]⟩))

/-- Witness for the amended C7: a file aged exactly 1 day sits in the
keep-all tier and survives a sweep over a singleton population. -/
theorem retention_zone_amended_witness :
    (zone_of 86400 ⟨"debug_screenshot_x.png", 0, 100⟩ = Zone.keep_all ↔
      (86400 : Int) - 0 < 4 * 86400) ∧
    (⟨"debug_screenshot_x.png", 0, 100⟩ : FileInfo) ∉
      cleanup_deleted 86400 [⟨"debug_screenshot_x.png", 0, 100⟩] :=
  ⟨(retention_zone_amended 86400 ⟨"debug_screenshot_x.png", 0, 100⟩).1,
   (retention_zone_amended 86400 ⟨"debug_screenshot_x.png", 0, 100⟩).2.2.2.2.1
     [⟨"debug_screenshot_x.png", 0, 100⟩] (by decide) (by decide)⟩

theorem group_keep_all (now : Int) (files : List FileInfo) :
    (group_files_by_time_period now files).keep_all =
      files.filter (fun f => decide (zone_of now f = Zone.keep_all)) := rfl

theorem group_hourly (now : Int) (files : List FileInfo) :
    (group_files_by_time_period now files).hourly_zone =
      files.filter (fun f => decide (zone_of now f = Zone.hourly)) := rfl

theorem group_daily (now : Int) (files : List FileInfo) :
    (group_files_by_time_period now files).daily_zone =
      files.filter (fun f => decide (zone_of now f = Zone.daily)) := rfl

theorem group_expired (now : Int) (files : List FileInfo) :
    (group_files_by_time_period now files).expired =
      files.filter (fun f => decide (zone_of now f = Zone.expired)) := rfl

theorem filter_mem_of_sublist {sel zs : List FileInfo}
    (hs : List.Sublist sel zs) : zs.Nodup →
    zs.filter (fun x => decide (x ∈ sel)) = sel := by
  induction hs with
  | slnil => intro _; rfl
  | @cons l₁ l₂ a hs ih =>
    intro hnd
    rcases List.nodup_cons.mp hnd with ⟨ha, hnd2⟩
    have hna : a ∉ l₁ := fun hmem => ha (hs.subset hmem)
    rw [List.filter_cons_of_neg (by simpa using hna)]
    exact ih hnd2
  | @cons₂ l₁ l₂ a hs ih =>
    intro hnd
    rcases List.nodup_cons.mp hnd with ⟨ha, hnd2⟩
    rw [List.filter_cons_of_pos (by simp)]
    have hpt : ∀ x ∈ l₂, (decide (x ∈ a :: l₁) : Bool) = decide (x ∈ l₁) := by
      intro x hx
      have hxa : x ≠ a := fun hxa => ha (hxa ▸ hx)
      simp [List.mem_cons, hxa]
    rw [List.filter_congr hpt, ih hnd2]

theorem mem_cleanup_deleted_iff {now : Int} {files : List FileInfo} {f : FileInfo} :
    f ∈ cleanup_deleted now files ↔
      (f ∈ (group_files_by_time_period now files).hourly_zone ∧
        f ∉ hourly_selected now files) ∨
      (f ∈ (group_files_by_time_period now files).daily_zone ∧
        f ∉ daily_selected now files) ∨
      f ∈ (group_files_by_time_period now files).expired := by
  unfold cleanup_deleted hourly_to_delete daily_to_delete
  simp [List.mem_append, List.mem_filter, or_assoc]

theorem hourly_selected_sublist_zone (now : Int) (files : List FileInfo) :
    List.Sublist (hourly_selected now files)
      (group_files_by_time_period now files).hourly_zone :=
  select_rep_from_sublist 1 _ none

theorem daily_selected_sublist_zone (now : Int) (files : List FileInfo) :
    List.Sublist (daily_selected now files)
      (group_files_by_time_period now files).daily_zone :=
  select_rep_from_sublist 24 _ none

theorem deleted_iff_not_selected_hourly {now : Int} {files : List FileInfo} {f : FileInfo}
    (hf : f ∈ files) (hz : zone_of now f = Zone.hourly) :
    (f ∈ cleanup_deleted now files ↔ f ∉ hourly_selected now files) := by
  rw [mem_cleanup_deleted_iff]
  have hhz : f ∈ (group_files_by_time_period now files).hourly_zone := by
    rw [group_hourly]
    exact List.mem_filter.mpr ⟨hf, by simp [hz]⟩
  constructor
  · rintro (⟨_, h⟩ | ⟨hd, _⟩ | he)
    · exact h
    · have hzd := mem_zone_filter (z := Zone.daily) (by rw [group_daily] at hd; exact hd)
      rw [hz] at hzd
      simp at hzd
    · have hze := mem_zone_filter (z := Zone.expired) (by rw [group_expired] at he; exact he)
      rw [hz] at hze
      simp at hze
  · intro h
    exact Or.inl ⟨hhz, h⟩

theorem deleted_iff_not_selected_daily {now : Int} {files : List FileInfo} {f : FileInfo}
    (hf : f ∈ files) (hz : zone_of now f = Zone.daily) :
    (f ∈ cleanup_deleted now files ↔ f ∉ daily_selected now files) := by
  rw [mem_cleanup_deleted_iff]
  have hdz : f ∈ (group_files_by_time_period now files).daily_zone := by
    rw [group_daily]
    exact List.mem_filter.mpr ⟨hf, by simp [hz]⟩
  constructor
  · rintro (⟨hh, _⟩ | ⟨_, h⟩ | he)
    · have hzh := mem_zone_filter (z := Zone.hourly) (by rw [group_hourly] at hh; exact hh)
      rw [hz] at hzh
      simp at hzh
    · exact h
    · have hze := mem_zone_filter (z := Zone.expired) (by rw [group_expired] at he; exact he)
      rw [hz] at hze
      simp at hze
  · intro h
    exact Or.inr (Or.inl ⟨hdz, h⟩)

theorem expired_mem_deleted {now : Int} {files : List FileInfo} {f : FileInfo}
    (hf : f ∈ files) (hz : zone_of now f = Zone.expired) :
    f ∈ cleanup_deleted now files := by
  rw [mem_cleanup_deleted_iff]
  refine Or.inr (Or.inr ?_)
  rw [group_expired]
  exact List.mem_filter.mpr ⟨hf, by simp [hz]⟩

theorem survivors_hourly (now : Int) (files : List FileInfo) (hnd : files.Nodup) :
    (group_files_by_time_period now (surviving_files now files)).hourly_zone =
      hourly_selected now files := by
  rw [group_hourly]
  unfold surviving_files
  rw [List.filter_filter]
  have hpt : ∀ f ∈ files,
      (decide (zone_of now f = Zone.hourly) &&
        decide (f ∉ cleanup_deleted now files)) =
      decide (f ∈ hourly_selected now files) := by
    intro f hf
    by_cases hz : zone_of now f = Zone.hourly
    · rw [hz]
      simp only [decide_True, Bool.true_and]
      apply decide_eq_decide.mpr
      rw [deleted_iff_not_selected_hourly hf hz]
      exact not_not
    · have hns : f ∉ hourly_selected now files := by
        intro hmem
        have hhz := (hourly_selected_sublist_zone now files).subset hmem
        rw [group_hourly] at hhz
        exact hz (mem_zone_filter hhz)
      simp [hz, hns]
  rw [List.filter_congr hpt]
  exact filter_mem_of_sublist
    ((hourly_selected_sublist_zone now files).trans
      (by rw [group_hourly]; exact List.filter_sublist files)) hnd

theorem survivors_daily (now : Int) (files : List FileInfo) (hnd : files.Nodup) :
    (group_files_by_time_period now (surviving_files now files)).daily_zone =
      daily_selected now files := by
  rw [group_daily]
  unfold surviving_files
  rw [List.filter_filter]
  have hpt : ∀ f ∈ files,
      (decide (zone_of now f = Zone.daily) &&
        decide (f ∉ cleanup_deleted now files)) =
      decide (f ∈ daily_selected now files) := by
    intro f hf
    by_cases hz : zone_of now f = Zone.daily
    · rw [hz]
      simp only [decide_True, Bool.true_and]
      apply decide_eq_decide.mpr
      rw [deleted_iff_not_selected_daily hf hz]
      exact not_not
    · have hns : f ∉ daily_selected now files := by
        intro hmem
        have hdz := (daily_selected_sublist_zone now files).subset hmem
        rw [group_daily] at hdz
        exact hz (mem_zone_filter hdz)
      simp [hz, hns]
  rw [List.filter_congr hpt]
  exact filter_mem_of_sublist
    ((daily_selected_sublist_zone now files).trans
      (by rw [group_daily]; exact List.filter_sublist files)) hnd

theorem survivors_expired (now : Int) (files : List FileInfo) :
    (group_files_by_time_period now (surviving_files now files)).expired = [] := by
  rw [group_expired]
  unfold surviving_files
  rw [List.filter_filter]
  apply List.filter_eq_nil_iff.mpr
  intro f hf
  by_cases hz : zone_of now f = Zone.expired
  · simp [hz, expired_mem_deleted hf hz]
  · simp [hz]

/-- C6: the retention sweep is idempotent — over the population that
survives one sweep, a second sweep at the same reference time marks nothing
for deletion, reports deleted = 0, and leaves the surviving population
unchanged. -/
theorem cleanup_idempotent (now : Int) (files : List FileInfo) (hnd : files.Nodup) :
    cleanup_deleted now (surviving_files now files) = [] ∧
    (cleanup_files now (surviving_files now files)).deleted = 0 ∧
    surviving_files now (surviving_files now files) = surviving_files now files := by
  have hsel2 : hourly_selected now (surviving_files now files) =
      hourly_selected now files := by
    unfold hourly_selected
    rw [survivors_hourly now files hnd]
    exact select_of_chain _ 1 (select_chain _ 1)
  have hdel2 : daily_selected now (surviving_files now files) =
      daily_selected now files := by
    unfold daily_selected
    rw [survivors_daily now files hnd]
    exact select_of_chain _ 24 (select_chain _ 24)
  have hd : cleanup_deleted now (surviving_files now files) = [] := by
    unfold cleanup_deleted hourly_to_delete daily_to_delete
    rw [survivors_hourly now files hnd, survivors_daily now files hnd,
      survivors_expired now files, hsel2, hdel2]
    rw [List.filter_eq_nil_iff.mpr (fun a ha => by simp [ha]),
      List.filter_eq_nil_iff.mpr (fun a ha => by simp [ha])]
    rfl
  refine ⟨hd, ?_, ?_⟩
  · unfold cleanup_files
    by_cases hS : surviving_files now files = []
    · rw [if_pos hS]
    · rw [if_neg hS]
      simp [hd]
  · show (surviving_files now files).filter
        (fun f => decide (f ∉ cleanup_deleted now (surviving_files now files))) =
      surviving_files now files
    rw [hd]
    apply List.filter_eq_self.mpr
    intro a _
    simp

/-- Witness for C6: three hourly-zone files 30 minutes apart; the first
sweep deletes the middle one and a second sweep deletes nothing. -/
theorem cleanup_idempotent_witness :
    ([(⟨"a", 0, 1⟩ : FileInfo), ⟨"b", 1800, 1⟩, ⟨"c", 3600, 1⟩].Nodup) ∧
    cleanup_deleted 864000
      (surviving_files 864000 [⟨"a", 0, 1⟩, ⟨"b", 1800, 1⟩, ⟨"c", 3600, 1⟩]) = [] :=
  ⟨by decide,
   (cleanup_idempotent 864000 [⟨"a", 0, 1⟩, ⟨"b", 1800, 1⟩, ⟨"c", 3600, 1⟩] (by decide)).1⟩

/-- Character-list prefix test (used to embed glob and regex matching
without relying on byte-position string primitives). -/
def listStartsWith : List Char → List Char → Bool
  | [], _ => true
  | _ :: _, [] => false
  | p :: ps, c :: cs => p = c && listStartsWith ps cs

/-- Character-list suffix test. -/
def listEndsWith (suffix cs : List Char) : Bool :=
  listStartsWith suffix.reverse cs.reverse

/-- The glob pattern `debug_screenshot_*.png` over a flat directory:
the name is the 17-character prefix, anything, then `.png`. -/
def matches_screenshot_glob (s : String) : Bool :=
  listStartsWith "debug_screenshot_".toList s.toList &&
    listEndsWith ".png".toList (s.toList.drop 17)

/-- The glob pattern `debug_source_*.html`. -/
def matches_source_glob (s : String) : Bool :=
  listStartsWith "debug_source_".toList s.toList &&
    listEndsWith ".html".toList (s.toList.drop 13)

/-- Python's `\w` on these ASCII filenames: letters, digits or underscore. -/
def isWordChar (c : Char) : Bool := c.isAlphanum || c = '_'

/-- Take exactly `n` decimal digits from the front of the character list. -/
def takeDigits : Nat → List Char → Option (List Char × List Char)
  | 0, cs => some ([], cs)
  | _ + 1, [] => none
  | n + 1, c :: cs =>
    if c.isDigit then (takeDigits n cs).map (fun p => (c :: p.1, p.2)) else none

/-- Match the regex tail `_(\d{8})_(\d{6})` at the head of the list,
returning the two digit groups. -/
def matchGroups : List Char → Option (List Char × List Char)
  | '_' :: cs =>
    match takeDigits 8 cs with
    | some (d8, rest) =>
      match rest with
      | '_' :: cs2 =>
        match takeDigits 6 cs2 with
        | some (d6, _) => some (d8, d6)
        | none => none
      | _ => none
    | none => none
  | _ => none

/-- Greedy backtracking for `\w+` at a fixed start position: try the
longest word-character run first, then progressively shorter non-empty
runs, matching the digit-group tail after each. -/
def tryWord : Nat → List Char → Option (List Char × List Char)
  | 0, _ => none
  | k + 1, rest =>
    match matchGroups (rest.drop (k + 1)) with
    | some g => some g
    | none => tryWord k rest

/-- Attempt the pattern `debug_\w+_(\d{8})_(\d{6})` anchored at this
position. -/
def matchDebugAt (cs : List Char) : Option (List Char × List Char) :=
  match cs with
  | 'd' :: 'e' :: 'b' :: 'u' :: 'g' :: '_' :: rest =>
    tryWord (rest.takeWhile isWordChar).length rest
  | _ => none

/-- `re.search`: scan candidate start positions left to right and return
the first match. -/
def searchDebug : List Char → Option (List Char × List Char)
  | [] => none
  | c :: cs =>
    match matchDebugAt (c :: cs) with
    | some g => some g
    | none => searchDebug cs

/-- Digit characters to the number they spell. -/
def digitsToNat (ds : List Char) : Nat :=
  ds.foldl (fun acc c => acc * 10 + (c.toNat - 48)) 0

/-- Gregorian leap-year rule, as Python's calendar uses it. -/
def isLeapYear (y : Nat) : Bool :=
  y % 4 = 0 && (y % 100 ≠ 0 || y % 400 = 0)

/-- Length of a month in the proleptic Gregorian calendar. -/
def daysInMonth (y m : Nat) : Nat :=
  if m = 2 then (if isLeapYear y then 29 else 28)
  else if m = 4 ∨ m = 6 ∨ m = 9 ∨ m = 11 then 30
  else 31

/-- Days before January 1st of year `y`, counting from year 1. -/
def daysBeforeYear (y : Nat) : Nat :=
  (y - 1) * 365 + (y - 1) / 4 - (y - 1) / 100 + (y - 1) / 400

/-- Days before the first of month `m` within year `y`. -/
def daysBeforeMonth (y m : Nat) : Nat :=
  ((List.range (m - 1)).map (fun i => daysInMonth y (i + 1))).sum

/-- `datetime.strptime(..., "%Y%m%d_%H%M%S")` applied to the two digit
groups, including the range checks the datetime constructor performs
(month 1-12, day within the month, hour to 23, minute and second to 59,
year at least 1); on success, seconds since the proleptic epoch. -/
def strptimeTimestamp (d8 d6 : List Char) : Option Int :=
  let y := digitsToNat (d8.take 4)
  let mo := digitsToNat ((d8.drop 4).take 2)
  let d := digitsToNat (d8.drop 6)
  let h := digitsToNat (d6.take 2)
  let mi := digitsToNat ((d6.drop 2).take 2)
  let s := digitsToNat (d6.drop 4)
  if 1 ≤ y ∧ 1 ≤ mo ∧ mo ≤ 12 ∧ 1 ≤ d ∧ d ≤ daysInMonth y mo ∧
      h ≤ 23 ∧ mi ≤ 59 ∧ s ≤ 59 then
    some (((daysBeforeYear y + daysBeforeMonth y mo + (d - 1)) * 86400 +
      h * 3600 + mi * 60 + s : Nat) : Int)
  else none

/-- `parse_filename_timestamp` (lines 32-38): search the name for the
pattern `debug_\w+_(\d{8})_(\d{6})` and parse the groups with strptime;
either failure yields None (the strptime exception is caught by the caller
and likewise skips the file). -/
def parse_filename_timestamp (s : String) : Option Int :=
  match searchDebug s.toList with
  | some (d8, d6) => strptimeTimestamp d8 d6
  | none => none

/-- A raw directory entry: filename and byte size. -/
structure DirEntry where
  name : String
  size : Nat
deriving DecidableEq, Repr

/-- The two glob passes of `get_debug_files` (line 44), in pattern order. -/
def glob_candidates (dir : List DirEntry) : List DirEntry :=
  dir.filter (fun e => matches_screenshot_glob e.name) ++
    dir.filter (fun e => matches_source_glob e.name)

/-- `get_debug_files` (lines 40-63): keep the glob candidates whose
filename timestamp parses, build the metadata record, and sort by
timestamp. -/
def get_debug_files (dir : List DirEntry) : List FileInfo :=
  ((glob_candidates dir).filterMap
    (fun e => (parse_filename_timestamp e.name).map
      (fun ts => ({ name := e.name, ts := ts, size := e.size } : FileInfo)))).mergeSort
    (fun a b => decide (a.ts ≤ b.ts))

/-- The directory contents after one `cleanup_files` sweep over it: every
entry whose path was not unlinked. -/
def sweep_dir (now : Int) (dir : List DirEntry) : List DirEntry :=
  dir.filter (fun e =>
    decide (∀ f ∈ cleanup_deleted now (get_debug_files dir), f.name ≠ e.name))

theorem cleanup_deleted_subset {now : Int} {files : List FileInfo} {f : FileInfo}
    (h : f ∈ cleanup_deleted now files) : f ∈ files := by
  rcases mem_cleanup_deleted_iff.mp h with ⟨hh, _⟩ | ⟨hd, _⟩ | he
  · rw [group_hourly] at hh
    exact List.mem_of_mem_filter hh
  · rw [group_daily] at hd
    exact List.mem_of_mem_filter hd
  · rw [group_expired] at he
    exact List.mem_of_mem_filter he

theorem mem_get_debug_files {dir : List DirEntry} {f : FileInfo}
    (h : f ∈ get_debug_files dir) :
    (matches_screenshot_glob f.name || matches_source_glob f.name) = true ∧
    (parse_filename_timestamp f.name).isSome := by
  unfold get_debug_files at h
  rw [(List.mergeSort_perm _ _).mem_iff] at h
  rcases List.mem_filterMap.mp h with ⟨e, he, hts⟩
  rcases Option.map_eq_some'.mp hts with ⟨ts, hparse, hrec⟩
  have hname : f.name = e.name := by rw [← hrec]
  unfold glob_candidates at he
  rcases List.mem_append.mp he with h1 | h2
  · have hpat := (List.mem_filter.mp h1).2
    constructor
    · rw [hname, Bool.or_eq_true]
      exact Or.inl hpat
    · rw [hname, hparse]
      rfl
  · have hpat := (List.mem_filter.mp h2).2
    constructor
    · rw [hname, Bool.or_eq_true]
      exact Or.inr hpat
    · rw [hname, hparse]
      rfl

/-- C10: the sweep only ever deletes files whose names match one of the two
debug glob patterns and contain a parseable `debug_<word>_YYYYMMDD_HHMMSS`
timestamp; every directory entry without both properties survives the
sweep unchanged. -/
theorem sweep_frame (now : Int) (dir : List DirEntry) :
    (∀ f ∈ cleanup_deleted now (get_debug_files dir),
      (matches_screenshot_glob f.name || matches_source_glob f.name) = true ∧
      (parse_filename_timestamp f.name).isSome) ∧
    (∀ e ∈ dir,
      ¬ ((matches_screenshot_glob e.name || matches_source_glob e.name) = true ∧
        (parse_filename_timestamp e.name).isSome) →
      e ∈ sweep_dir now dir) := by
  constructor
  · intro f hf
    exact mem_get_debug_files (cleanup_deleted_subset hf)
  · intro e he hprop
    unfold sweep_dir
    refine List.mem_filter.mpr ⟨he, ?_⟩
    apply decide_eq_true
    intro f hf hfe
    apply hprop
    have hff := mem_get_debug_files (cleanup_deleted_subset hf)
    rw [hfe] at hff
    exact hff

/-- Witness for C10: a non-debug file in the directory survives the sweep. -/
theorem sweep_frame_witness :
    (⟨"notes.txt", 5⟩ : DirEntry) ∈ [(⟨"notes.txt", 5⟩ : DirEntry)] ∧
    (⟨"notes.txt", 5⟩ : DirEntry) ∈ sweep_dir 0 [⟨"notes.txt", 5⟩] :=
  ⟨by decide,
   (sweep_frame 0 [⟨"notes.txt", 5⟩]).2 ⟨"notes.txt", 5⟩ (by decide) (by decide)⟩

end CleanupDebugFiles
